import Mathlib

/-!
Broadcaster — verification of the live-playlist synthesizer and its collaborators.

Shallow embedding of the channel broadcast engine of the Broadcaster repository:

* `createRollingPlaylist` (src/Classes/PlaylistManager.js) — the live-playlist
  synthesizer: given the compiled program (the ordered list of segment records
  produced by `generateMasterPlaylist`) and an offset in seconds, it renders the
  rolling HLS manifest.  Manifest text is modelled as a list of `Line`s, one per
  emitted `playlist += ... + '\n'` in the source, together with a renderer to a
  plain string.
* `isAlreadyGenerated` (src/Utilities/PreGenerator.js) — the bundle-existence
  check, over an explicit model of the on-disk bundle state.
* `updateManifest` (src/Classes/PlaylistManager.js) — the per-channel
  manifest.json update, over an association-list model of the JSON mapping.
* the schedule-generation loop of `getSchedule` (src/Classes/PlaylistManager.js)
  — wall-clock instants become explicit rational parameters.

JavaScript numbers are modelled as rationals (`ℚ`), with JavaScript's
truncating `%` and `Math.floor` made explicit.
-/

namespace Broadcaster

/-- JavaScript truncation toward zero, as used by the `%` operator:
`Math.trunc(x)` — ceiling for negative arguments, floor otherwise. -/
def jsTrunc (x : ℚ) : ℤ :=
  if x < 0 then ⌈x⌉ else ⌊x⌋

/-- JavaScript remainder `a % b`: `a - b * trunc(a / b)`.  For `a ≥ 0, b > 0`
this agrees with the mathematical remainder; for `a < 0` the result is ≤ 0. -/
def jsMod (a b : ℚ) : ℚ :=
  a - b * jsTrunc (a / b)

/-- One segment record of the compiled program, as pushed by
`generateMasterPlaylist`: `{duration, path, videoIndex, timestamp}` where
`timestamp` is the running total duration *including* this segment. -/
structure Segment where
  duration : ℚ
  path : String
  videoIndex : ℕ
  timestamp : ℚ
deriving DecidableEq, Repr

/-- `allSegments[allSegments.length - 1].timestamp` — the total duration `T`
of the compiled program (0 for the empty program). -/
def totalDuration : List Segment → ℚ
  | [] => 0
  | [s] => s.timestamp
  | _ :: s :: rest => totalDuration (s :: rest)

/-- The scan of the `for` loop of `createRollingPlaylist`: the first index whose
`timestamp` strictly exceeds the normalized offset, if any. -/
def findCurrent (normalizedOffset : ℚ) : List Segment → Option ℕ
  | [] => none
  | s :: rest =>
      if normalizedOffset < s.timestamp then some 0
      else (findCurrent normalizedOffset rest).map (· + 1)

/-- The current-position index of `createRollingPlaylist`: the first index whose
`timestamp` exceeds the normalized offset, defaulting to 0 when the scan finds
none (`let currentIndex = 0` before the loop). -/
def currentIndex (segs : List Segment) (normalizedOffset : ℚ) : ℕ :=
  (findCurrent normalizedOffset segs).getD 0

/-- `const bufferAhead = 18` — segments of look-ahead past the current index. -/
def bufferAhead : ℕ := 18

/-- One output line of the manifest, mirroring each `playlist += ... + '\n'`. -/
inductive Line where
  | extm3u : Line
  | version : Line
  | targetDur : ℤ → Line
  | mediaSeq : ℤ → Line
  | extinf : ℚ → Line
  | url : String → Line
  | disc : Line
  | endlist : Line
deriving DecidableEq, Repr

/-- The segment-emission loop of `createRollingPlaylist`, carrying
`lastVideoIndex` (initially `null`): a discontinuity line is emitted before a
segment exactly when `lastVideoIndex` is non-null and differs from the
segment's `videoIndex`. -/
def bodyAux (lastVideoIndex : Option ℕ) : List Segment → List Line
  | [] => []
  | s :: rest =>
      (match lastVideoIndex with
       | some v => if s.videoIndex ≠ v then [Line.disc] else []
       | none => []) ++
      (Line.extinf s.duration :: Line.url s.path :: bodyAux (some s.videoIndex) rest)

/-- The manifest body emitted for a window of segments. -/
def bodyOf (window : List Segment) : List Line :=
  bodyAux none window

/-- `Math.ceil(Math.max(...segmentsInWindow.map(s => s.duration), 2))`. -/
def targetDurationOf (window : List Segment) : ℤ :=
  ⌈window.foldl (fun m s => max m s.duration) 2⌉

/-- The media-sequence value of `createRollingPlaylist`:
`loopCount * totalSegments` with `loopCount = Math.floor(offsetSeconds / totalDuration)`. -/
def mediaSequence (segs : List Segment) (offsetSeconds : ℚ) : ℤ :=
  ⌊offsetSeconds / totalDuration segs⌋ * (segs.length : ℤ)

/-- The window selected by `createRollingPlaylist`: all segments from the start
of the current loop up to `endIndex = Math.min(currentIndex + bufferAhead, totalSegments)`. -/
def windowOf (segs : List Segment) (offsetSeconds : ℚ) : List Segment :=
  segs.take
    (min (currentIndex segs (jsMod offsetSeconds (totalDuration segs)) + bufferAhead)
      segs.length)

/-- `createRollingPlaylist(offsetSeconds)` of src/Classes/PlaylistManager.js
(the current revision, with `bufferAhead = 18`), as a list of output lines. -/
def createRollingPlaylist (segs : List Segment) (offsetSeconds : ℚ) : List Line :=
  if segs.isEmpty then
    [Line.extm3u, Line.version, Line.endlist]
  else
    Line.extm3u :: Line.version ::
    Line.targetDur (targetDurationOf (windowOf segs offsetSeconds)) ::
    Line.mediaSeq (mediaSequence segs offsetSeconds) ::
    bodyOf (windowOf segs offsetSeconds)

/-- `Number.prototype.toFixed(6)` for the nonnegative durations emitted by the
synthesizer: six digits after the decimal point, rounding half away from zero. -/
def fmt6 (d : ℚ) : String :=
  let n := ⌊d * 1000000 + 1 / 2⌋
  let ip := n / 1000000
  let fp := (n % 1000000).toNat
  let s := toString fp
  toString ip ++ "." ++ ("".pushn '0' (6 - s.length)) ++ s

/-- Rendering of one manifest line (without the trailing newline). -/
def renderLine : Line → String
  | Line.extm3u => "#EXTM3U"
  | Line.version => "#EXT-X-VERSION:3"
  | Line.targetDur n => "#EXT-X-TARGETDURATION:" ++ toString n
  | Line.mediaSeq n => "#EXT-X-MEDIA-SEQUENCE:" ++ toString n
  | Line.extinf d => "#EXTINF:" ++ fmt6 d ++ ","
  | Line.url p => p
  | Line.disc => "#EXT-X-DISCONTINUITY"
  | Line.endlist => "#EXT-X-ENDLIST"

/-- The manifest text: every emitted line followed by a newline. -/
def renderPlaylist (lines : List Line) : String :=
  String.join (lines.map (fun l => renderLine l ++ "\n"))

/-- The values of the `#EXT-X-MEDIA-SEQUENCE:` lines of a manifest. -/
def seqValues : List Line → List ℤ
  | [] => []
  | Line.mediaSeq n :: rest => n :: seqValues rest
  | Line.extm3u :: rest => seqValues rest
  | Line.version :: rest => seqValues rest
  | Line.targetDur _ :: rest => seqValues rest
  | Line.extinf _ :: rest => seqValues rest
  | Line.url _ :: rest => seqValues rest
  | Line.disc :: rest => seqValues rest
  | Line.endlist :: rest => seqValues rest

/-- The media-sequence value carried by the manifest (its first
`#EXT-X-MEDIA-SEQUENCE:` line), if any. -/
def emittedMediaSequence (lines : List Line) : Option ℤ :=
  (seqValues lines).head?

/-- The values of the `#EXT-X-TARGETDURATION:` lines of a manifest. -/
def tdValues : List Line → List ℤ
  | [] => []
  | Line.targetDur n :: rest => n :: tdValues rest
  | Line.extm3u :: rest => tdValues rest
  | Line.version :: rest => tdValues rest
  | Line.mediaSeq _ :: rest => tdValues rest
  | Line.extinf _ :: rest => tdValues rest
  | Line.url _ :: rest => tdValues rest
  | Line.disc :: rest => tdValues rest
  | Line.endlist :: rest => tdValues rest

/-- The number of `#EXTINF:` lines in a manifest. -/
def countEXTINF : List Line → ℕ
  | [] => 0
  | Line.extinf _ :: rest => countEXTINF rest + 1
  | Line.extm3u :: rest => countEXTINF rest
  | Line.version :: rest => countEXTINF rest
  | Line.targetDur _ :: rest => countEXTINF rest
  | Line.mediaSeq _ :: rest => countEXTINF rest
  | Line.url _ :: rest => countEXTINF rest
  | Line.disc :: rest => countEXTINF rest
  | Line.endlist :: rest => countEXTINF rest

/-- `Channel.getPlaylist` (src/Classes/Channel.js): `null` when the channel has
not started, otherwise the rolling playlist at
`offset = (Date.now() - this.startTime) / 1000` — note: no clamping of a
negative offset. -/
def getPlaylist (started : Bool) (now startTime : ℚ) (segs : List Segment) :
    Option (List Line) :=
  if !started then none
  else some (createRollingPlaylist segs ((now - startTime) / 1000))

/-! ## Bundle store: `isAlreadyGenerated` (src/Utilities/PreGenerator.js) -/

/-- The on-disk state of one segment-bundle directory as consulted by
`isAlreadyGenerated`.  Each field stands for one filesystem observation made by
the source: `dirExists` is `fs.existsSync(outputDir)`, `indexPresent` is
`fs.existsSync(playlistPath)`, `dirFiles` is `fs.readdirSync(outputDir)`,
`endlistInIndex` is `playlistContent.includes('#EXT-X-ENDLIST')`,
`listedSegments` is the list of matches of the pattern `segment_\d+\.ts` in the
index content, and `metadataPresent` is whether `metadata.json` exists. -/
structure Bundle where
  dirExists : Bool
  indexPresent : Bool
  dirFiles : List String
  endlistInIndex : Bool
  listedSegments : List String
  metadataPresent : Bool
deriving DecidableEq, Repr

/-- `f.endsWith('.ts')`, computed on the underlying character lists. -/
def endsWithTs (f : String) : Bool :=
  ".ts".data.isSuffixOf f.data

/-- `isAlreadyGenerated(filePath, channelSlug)`: the first component is the
returned boolean (complete?), the second records whether
`deletePartialGeneration` was invoked on its way out. -/
def isAlreadyGenerated (b : Bundle) : Bool × Bool :=
  if !b.indexPresent then
    (false, b.dirExists)
  else if (b.dirFiles.filter endsWithTs).isEmpty then
    (false, true)
  else if !b.endlistInIndex then
    (false, true)
  else if b.listedSegments.any (fun r => !b.dirFiles.contains r) then
    (false, true)
  else
    (true, false)

/-- The spec-side completeness predicate of claim C7, written from the spec
sentence: index present, end-of-list marker present, at least one segment
listed, every listed segment file on disk, and the metadata record present. -/
def specCompleteBundle (b : Bundle) : Prop :=
  b.indexPresent = true ∧ b.endlistInIndex = true ∧
  1 ≤ b.listedSegments.length ∧
  (∀ r ∈ b.listedSegments, b.dirFiles.contains r = true) ∧
  b.metadataPresent = true

instance (b : Bundle) : Decidable (specCompleteBundle b) := by
  unfold specCompleteBundle; infer_instance

/-! ## Per-channel manifest.json: `updateManifest` (src/Classes/PlaylistManager.js) -/

/-- One value of the manifest.json mapping: `{originalPath, filename, addedAt}`. -/
structure MRecord where
  originalPath : String
  filename : String
  addedAt : ℤ
deriving DecidableEq, Repr

/-- `updateManifest()`: the JSON object is modelled as an association list keyed
by fingerprint (JavaScript objects preserve insertion order; new keys are
appended).  `hash` abstracts `getVideoHash` (md5 of the path string),
`basename` abstracts `path.basename(filePath, path.extname(filePath))`, and
`now` abstracts `Date.now()`.  A record is written only when the fingerprint is
not yet present. -/
def updateManifest (hash basename : String → String) (now : ℤ)
    (queue : List String) (manifest : List (String × MRecord)) :
    List (String × MRecord) :=
  queue.foldl
    (fun m filePath =>
      if (m.lookup (hash filePath)).isSome then m
      else m ++ [(hash filePath, ⟨filePath, basename filePath, now⟩)])
    manifest

/-! ## Program guide: `getSchedule` (src/Classes/PlaylistManager.js)

Wall-clock reads (`Date.now()`, the 3 a.m. boundaries) become explicit
parameters `now`, `dayStart`, `dayEnd`; the display-name lookup becomes a
parameter `displayName : ℕ → String` from the segment's `videoIndex`. -/

/-- One record of the `videos` array built by `getSchedule`: one maximal run of
segments sharing a `videoIndex`, with loop-relative start (seconds) and total
duration (seconds). -/
structure ShowRec where
  videoIndex : ℕ
  displayName : String
  startTime : ℚ
  duration : ℚ
deriving DecidableEq, Repr

/-- `videos[videos.length - 1].duration += segment.duration`. -/
def addToLast (d : ℚ) : List ShowRec → List ShowRec
  | [] => []
  | [v] => [{ v with duration := v.duration + d }]
  | v :: rest => v :: addToLast d rest

/-- The `allSegments.forEach` loop of `getSchedule` building `videos`: state is
`(lastVideoIndex, videoStartTime, videos)`; a new record is pushed when the
`videoIndex` changes, the running segment's duration is added to the last
record, and `videoStartTime` becomes the segment's timestamp afterwards. -/
def buildShowsAux (displayName : ℕ → String) :
    List Segment → Option ℕ → ℚ → List ShowRec → List ShowRec
  | [], _, _, acc => acc
  | seg :: rest, lastIdx, videoStartTime, acc =>
      let acc1 :=
        if lastIdx ≠ some seg.videoIndex then
          acc ++ [⟨seg.videoIndex, displayName seg.videoIndex, videoStartTime, 0⟩]
        else acc
      buildShowsAux displayName rest (some seg.videoIndex) seg.timestamp
        (addToLast seg.duration acc1)

/-- The `videos` array of `getSchedule`. -/
def buildShows (displayName : ℕ → String) (segs : List Segment) : List ShowRec :=
  buildShowsAux displayName segs none 0 []

/-- One entry of the schedule: `{title, startTime, endTime, duration, isCurrent}`
(instants in milliseconds, duration in seconds). -/
structure ScheduleEntry where
  title : String
  startTime : ℚ
  endTime : ℚ
  duration : ℚ
  isCurrent : Bool
deriving DecidableEq, Repr

/-- `playerTime = now + bufferOffsetMs` of `getSchedule`, with
`bufferOffsetMs = bufferAheadSegments * avgSegmentDuration * 1000` and
`avgSegmentDuration = totalDuration / allSegments.length`. -/
def playerTimeOf (segs : List Segment) (now : ℚ) : ℚ :=
  now + (bufferAhead : ℚ) * (totalDuration segs / segs.length) * 1000

/-- The `videos.forEach` body of the schedule-generation loop: skip shows of
nonpositive duration, keep shows overlapping `[dayStart, dayEnd)`, and set
`isCurrent = (videoStartMs <= playerTime && videoEndMs > playerTime)`. -/
def entriesForLoop (videos : List ShowRec)
    (currentLoopStart dayStart dayEnd playerTime : ℚ) : List ScheduleEntry :=
  videos.filterMap fun video =>
    if video.duration ≤ 0 then none
    else
      let videoStartMs := currentLoopStart + video.startTime * 1000
      let videoEndMs := videoStartMs + video.duration * 1000
      if dayStart < videoEndMs ∧ videoStartMs < dayEnd then
        some ⟨video.displayName, videoStartMs, videoEndMs, video.duration,
              decide (videoStartMs ≤ playerTime) && decide (playerTime < videoEndMs)⟩
      else none

/-- `while (scheduleLoopStart > dayStart) scheduleLoopStart -= loopDuration`,
run with an explicit iteration budget (the callers pass a budget large enough
that the guard has failed before it runs out). -/
def backToDayStart (dayStart loopDuration : ℚ) : ℕ → ℚ → ℚ
  | 0, s => s
  | n + 1, s =>
      if dayStart < s then backToDayStart dayStart loopDuration n (s - loopDuration)
      else s

/-- `while (currentLoopStart < dayEnd) { videos.forEach(...); currentLoopStart += loopDuration }`,
run with an explicit iteration budget. -/
def collectLoops (videos : List ShowRec) (dayStart dayEnd playerTime loopDuration : ℚ) :
    ℕ → ℚ → List ScheduleEntry
  | 0, _ => []
  | n + 1, currentLoopStart =>
      if currentLoopStart < dayEnd then
        entriesForLoop videos currentLoopStart dayStart dayEnd playerTime ++
        collectLoops videos dayStart dayEnd playerTime loopDuration n
          (currentLoopStart + loopDuration)
      else []

/-- Iteration budget covering the interval from `lo` to `hi` in steps of
`step`: one more than the number of steps needed. -/
def fuelFor (lo hi step : ℚ) : ℕ :=
  (⌈(hi - lo) / step⌉).toNat + 1

/-- The schedule list as produced by the generation loops of `getSchedule`,
before sorting and merging. -/
def preMergeSchedule (displayName : ℕ → String) (segs : List Segment)
    (startTime now dayStart dayEnd : ℚ) : List ScheduleEntry :=
  let totalD := totalDuration segs
  let videos := buildShows displayName segs
  let currentOffset := (now - startTime) / 1000
  let normalizedOffset := jsMod currentOffset totalD
  let playerTime := playerTimeOf segs now
  let loopStartTime := now - normalizedOffset * 1000
  let loopDuration := totalD * 1000
  let scheduleLoopStart :=
    backToDayStart dayStart loopDuration (fuelFor dayStart loopStartTime loopDuration)
      loopStartTime
  collectLoops videos dayStart dayEnd playerTime loopDuration
    (fuelFor scheduleLoopStart dayEnd loopDuration) scheduleLoopStart

/-- Insertion step of the stable ascending sort
`schedule.sort((a, b) => a.startTime - b.startTime)`. -/
def insertByStart (e : ScheduleEntry) : List ScheduleEntry → List ScheduleEntry
  | [] => [e]
  | x :: rest =>
      if x.startTime < e.startTime then x :: insertByStart e rest
      else e :: x :: rest

/-- Stable sort of the schedule by `startTime` (JavaScript `Array.sort` is
stable). -/
def sortByStart : List ScheduleEntry → List ScheduleEntry
  | [] => []
  | e :: rest => insertByStart e (sortByStart rest)

/-- `SHORT_THRESHOLD = 20 * 60` seconds. -/
def shortThreshold : ℚ := 20 * 60

/-- The inner `while` of the merge pass: keep absorbing consecutive entries
with the same title and short duration, extending the end, accumulating the
duration and OR-ing `isCurrent`; returns the merged entry and the rest. -/
def mergeRun (cur : ScheduleEntry) : List ScheduleEntry → ScheduleEntry × List ScheduleEntry
  | [] => (cur, [])
  | e :: rest =>
      if e.title = cur.title ∧ e.duration < shortThreshold then
        mergeRun { cur with endTime := e.endTime,
                            duration := cur.duration + e.duration,
                            isCurrent := cur.isCurrent || e.isCurrent } rest
      else (cur, e :: rest)

/-- The merge pass of `getSchedule`, with an iteration budget (the caller
passes the list length, which always suffices since `mergeRun` only shortens
the remainder). -/
def mergeShorts : ℕ → List ScheduleEntry → List ScheduleEntry
  | 0, l => l
  | _ + 1, [] => []
  | n + 1, e :: rest =>
      if e.duration < shortThreshold then
        let p := mergeRun e rest
        p.1 :: mergeShorts n p.2
      else e :: mergeShorts n rest

/-- `getSchedule()` (current revision): empty for an empty compiled program,
otherwise the generated entries sorted by start time with consecutive short
same-title entries merged. -/
def getSchedule (displayName : ℕ → String) (segs : List Segment)
    (startTime now dayStart dayEnd : ℚ) : List ScheduleEntry :=
  if segs.isEmpty then []
  else
    let sorted := sortByStart (preMergeSchedule displayName segs startTime now dayStart dayEnd)
    mergeShorts sorted.length sorted

/-! ## Spec-side definitions (written from the spec sentences, for comparison) -/

/-- Spec-side shape of the manifest body (claim C4): each segment contributes
its `#EXTINF` line and URL line, and exactly one discontinuity line stands
between two consecutive segments when their `videoIndex` differs, none when it
is equal. -/
def bodySpec : List Segment → List Line
  | [] => []
  | [s] => [Line.extinf s.duration, Line.url s.path]
  | s :: t :: rest =>
      Line.extinf s.duration :: Line.url s.path ::
        ((if t.videoIndex ≠ s.videoIndex then [Line.disc] else []) ++
          bodySpec (t :: rest))

/-- The maximum segment duration of a non-empty list (`Dmax_window` of the
spec); 0 for the empty list. -/
def maxSegDuration : List Segment → ℚ
  | [] => 0
  | [s] => s.duration
  | s :: t :: rest => max s.duration (maxSegDuration (t :: rest))

/-- The media-sequence formula asserted by claim C1:
`floor(offset / T) * L + max(0, k - windowBehind)` with `windowBehind = 30`. -/
def specMediaSequenceC1 (segs : List Segment) (off : ℚ) : ℤ :=
  ⌊off / totalDuration segs⌋ * segs.length +
    max 0 ((currentIndex segs (jsMod off (totalDuration segs)) : ℤ) - 30)

/-! ## Concrete programs used by witnesses and counterexamples -/

/-- The S2/S3 program of the spec: three segments of durations 6, 6 and 4.5
seconds from a single source, `T = 16.5`. -/
def segs3 : List Segment :=
  [⟨6, "a0", 0, 6⟩, ⟨6, "a1", 0, 12⟩, ⟨9/2, "a2", 0, 33/2⟩]

/-- Two sources of two 2-second segments each (the S4 shape), `T = 8`. -/
def segsAB : List Segment :=
  [⟨2, "x0", 0, 2⟩, ⟨2, "x1", 0, 4⟩, ⟨2, "y0", 1, 6⟩, ⟨2, "y1", 1, 8⟩]

/-- Thirty-two one-second segments of a single source, `T = 32`. -/
def segs32 : List Segment :=
  [⟨1, "s", 0, 1⟩, ⟨1, "s", 0, 2⟩, ⟨1, "s", 0, 3⟩, ⟨1, "s", 0, 4⟩,
   ⟨1, "s", 0, 5⟩, ⟨1, "s", 0, 6⟩, ⟨1, "s", 0, 7⟩, ⟨1, "s", 0, 8⟩,
   ⟨1, "s", 0, 9⟩, ⟨1, "s", 0, 10⟩, ⟨1, "s", 0, 11⟩, ⟨1, "s", 0, 12⟩,
   ⟨1, "s", 0, 13⟩, ⟨1, "s", 0, 14⟩, ⟨1, "s", 0, 15⟩, ⟨1, "s", 0, 16⟩,
   ⟨1, "s", 0, 17⟩, ⟨1, "s", 0, 18⟩, ⟨1, "s", 0, 19⟩, ⟨1, "s", 0, 20⟩,
   ⟨1, "s", 0, 21⟩, ⟨1, "s", 0, 22⟩, ⟨1, "s", 0, 23⟩, ⟨1, "s", 0, 24⟩,
   ⟨1, "s", 0, 25⟩, ⟨1, "s", 0, 26⟩, ⟨1, "s", 0, 27⟩, ⟨1, "s", 0, 28⟩,
   ⟨1, "s", 0, 29⟩, ⟨1, "s", 0, 30⟩, ⟨1, "s", 0, 31⟩, ⟨1, "s", 0, 32⟩]

/-- Two sources of one 10-second segment each, `T = 20` (guide scenario). -/
def segsC9 : List Segment := [⟨10, "v0", 0, 10⟩, ⟨10, "v1", 1, 20⟩]

/-- Display names for the two sources of `segsC9`. -/
def dnC9 : ℕ → String := fun i => if i = 0 then "A" else "B"

/-- The bundle of claim C7's counterexample: index present with end-of-list
marker, one listed segment that exists on disk, but no metadata record. -/
def noMetadataBundle : Bundle :=
  ⟨true, true, ["index.m3u8", "segment_00000.ts"], true, ["segment_00000.ts"], false⟩

/-- A bundle whose index lacks the end-of-list marker (used by C7's witness). -/
def noEndlistBundle : Bundle :=
  ⟨true, true, ["index.m3u8", "segment_00000.ts"], false, ["segment_00000.ts"], true⟩

/-! ## Helper lemmas -/

/-- The discontinuity prefix contributed by the head of `w` against a previous
`videoIndex` `v`. -/
def headDisc (w : List Segment) (v : ℕ) : List Line :=
  match w with
  | [] => []
  | t :: _ => if t.videoIndex ≠ v then [Line.disc] else []

theorem createRollingPlaylist_eq (segs : List Segment) (off : ℚ) (hne : segs ≠ []) :
    createRollingPlaylist segs off =
      Line.extm3u :: Line.version ::
      Line.targetDur (targetDurationOf (windowOf segs off)) ::
      Line.mediaSeq (mediaSequence segs off) ::
      bodyOf (windowOf segs off) := by
  unfold createRollingPlaylist
  rw [if_neg (by simpa using hne)]

theorem bodyAux_some_eq (w : List Segment) : ∀ v : ℕ,
    bodyAux (some v) w = headDisc w v ++ bodySpec w := by
  induction w with
  | nil => intro v; simp [bodyAux, bodySpec, headDisc]
  | cons t rest ih =>
    intro v
    have h1 : bodyAux (some v) (t :: rest) =
        (if t.videoIndex ≠ v then [Line.disc] else []) ++
          (Line.extinf t.duration :: Line.url t.path ::
            bodyAux (some t.videoIndex) rest) := rfl
    rw [h1, ih t.videoIndex]
    cases rest with
    | nil => simp [bodySpec, headDisc]
    | cons u rest2 => simp [bodySpec, headDisc]

theorem bodyOf_eq_bodySpec (w : List Segment) : bodyOf w = bodySpec w := by
  cases w with
  | nil => simp [bodyOf, bodyAux, bodySpec]
  | cons s rest =>
    have h1 : bodyOf (s :: rest) =
        Line.extinf s.duration :: Line.url s.path ::
          bodyAux (some s.videoIndex) rest := rfl
    rw [h1, bodyAux_some_eq rest s.videoIndex]
    cases rest with
    | nil => simp [bodySpec, headDisc]
    | cons u rest2 => simp [bodySpec, headDisc]

theorem emittedMediaSequence_eq (segs : List Segment) (off : ℚ) (hne : segs ≠ []) :
    emittedMediaSequence (createRollingPlaylist segs off) =
      some (mediaSequence segs off) := by
  rw [createRollingPlaylist_eq segs off hne]
  simp [emittedMediaSequence, seqValues]

/-- Every line emitted by the segment loop is an `#EXTINF`, a URL, or a
discontinuity. -/
theorem bodyAux_lines (w : List Segment) : ∀ last, ∀ l ∈ bodyAux last w,
    (∃ d, l = Line.extinf d) ∨ (∃ p, l = Line.url p) ∨ l = Line.disc := by
  induction w with
  | nil => intro last l hl; simp [bodyAux] at hl
  | cons s rest ih =>
    intro last l hl
    cases last with
    | none =>
      simp [bodyAux] at hl
      rcases hl with rfl | rfl | h
      · exact Or.inl ⟨_, rfl⟩
      · exact Or.inr (Or.inl ⟨_, rfl⟩)
      · exact ih _ l h
    | some v =>
      by_cases h : s.videoIndex ≠ v
      · simp [bodyAux, h] at hl
        rcases hl with rfl | rfl | rfl | hm
        · exact Or.inr (Or.inr rfl)
        · exact Or.inl ⟨_, rfl⟩
        · exact Or.inr (Or.inl ⟨_, rfl⟩)
        · exact ih _ l hm
      · simp [bodyAux, h] at hl
        rcases hl with rfl | rfl | hm
        · exact Or.inl ⟨_, rfl⟩
        · exact Or.inr (Or.inl ⟨_, rfl⟩)
        · exact ih _ l hm

theorem tdValues_eq_nil (ls : List Line)
    (h : ∀ l ∈ ls, (∃ d, l = Line.extinf d) ∨ (∃ p, l = Line.url p) ∨ l = Line.disc) :
    tdValues ls = [] := by
  induction ls with
  | nil => rfl
  | cons a rest ih =>
    rcases h a (by simp) with ⟨d, rfl⟩ | ⟨p, rfl⟩ | rfl <;>
      exact ih (fun l hl => h l (by simp [hl]))

theorem tdValues_bodyOf (w : List Segment) : tdValues (bodyOf w) = [] :=
  tdValues_eq_nil _ (bodyAux_lines w none)

theorem countEXTINF_append (l1 l2 : List Line) :
    countEXTINF (l1 ++ l2) = countEXTINF l1 + countEXTINF l2 := by
  induction l1 with
  | nil => simp [countEXTINF]
  | cons a rest ih => cases a <;> simp [countEXTINF, ih] <;> omega

theorem countEXTINF_bodyAux (w : List Segment) :
    ∀ last, countEXTINF (bodyAux last w) = w.length := by
  induction w with
  | nil => intro last; simp [bodyAux, countEXTINF]
  | cons s rest ih =>
    intro last
    have h1 : bodyAux last (s :: rest) =
        (match last with
         | some v => if s.videoIndex ≠ v then [Line.disc] else []
         | none => []) ++
          (Line.extinf s.duration :: Line.url s.path ::
            bodyAux (some s.videoIndex) rest) := rfl
    rw [h1, countEXTINF_append]
    cases last with
    | none => simp [countEXTINF, ih (some s.videoIndex)]
    | some v =>
      rcases ne_or_eq s.videoIndex v with h | h <;>
        simp [h, countEXTINF, ih]

theorem windowOf_length (segs : List Segment) (off : ℚ) :
    (windowOf segs off).length =
      min (currentIndex segs (jsMod off (totalDuration segs)) + bufferAhead)
        segs.length := by
  simp [windowOf]

theorem windowOf_ne_nil (segs : List Segment) (off : ℚ) (hne : segs ≠ []) :
    windowOf segs off ≠ [] := by
  have h := windowOf_length segs off
  have hL : 0 < segs.length := List.length_pos.mpr hne
  intro hw
  rw [hw] at h
  simp [bufferAhead] at h
  omega

theorem foldl_max_eq (w : List Segment) (hw : w ≠ []) : ∀ a : ℚ,
    w.foldl (fun m s => max m s.duration) a = max a (maxSegDuration w) := by
  induction w with
  | nil => exact absurd rfl hw
  | cons s rest ih =>
    intro a
    cases rest with
    | nil => simp [maxSegDuration]
    | cons u rest2 =>
      simp only [List.foldl_cons, ih (by simp), maxSegDuration]
      rw [max_assoc]

theorem le_maxSegDuration (w : List Segment) :
    ∀ s ∈ w, s.duration ≤ maxSegDuration w := by
  induction w with
  | nil => simp
  | cons s rest ih =>
    intro t ht
    cases rest with
    | nil =>
      simp at ht
      simp [maxSegDuration, ht]
    | cons u rest2 =>
      rcases List.mem_cons.mp ht with h | h
      · simp [maxSegDuration, h]
      · exact le_trans (ih t h) (by simp [maxSegDuration])

theorem jsMod_zero (b : ℚ) : jsMod 0 b = 0 := by
  simp [jsMod, jsTrunc]

theorem jsMod_nonpos (a b : ℚ) (ha : a < 0) (hb : 0 < b) : jsMod a b ≤ 0 := by
  have hq : a / b < 0 := div_neg_of_neg_of_pos ha hb
  rw [jsMod, jsTrunc, if_pos hq]
  have hc : a / b ≤ (⌈a / b⌉ : ℚ) := Int.le_ceil _
  have := mul_le_mul_of_nonneg_left hc (le_of_lt hb)
  rw [mul_div_cancel₀ a (ne_of_gt hb)] at this
  linarith

theorem currentIndex_head (s : Segment) (rest : List Segment) (no : ℚ)
    (h : no < s.timestamp) : currentIndex (s :: rest) no = 0 := by
  simp [currentIndex, findCurrent, h]

/-! ## Claims -/

/-- C1, counterexample: at the 32-segment uniform program and offset 31.5 the
manifest carries media sequence 0 (`floor(31.5/32)*32`), while the claim's
formula `floor(offset/T)*L + max(0, k - windowBehind)` yields 1 (`k = 31`),
so the claim as stated is false on the code. -/
theorem C1_counterexample :
    emittedMediaSequence (createRollingPlaylist segs32 (63/2)) = some 0 ∧
    specMediaSequenceC1 segs32 (63/2) = 1 ∧
    emittedMediaSequence (createRollingPlaylist segs32 (63/2)) ≠
      some (specMediaSequenceC1 segs32 (63/2)) := by
  have hne : segs32 ≠ [] := by simp [segs32]
  have h1 := emittedMediaSequence_eq segs32 (63/2) hne
  have hT : totalDuration segs32 = 32 := by norm_num [totalDuration, segs32]
  have hm : mediaSequence segs32 (63/2) = 0 := by
    rw [mediaSequence, hT]
    norm_num
  have hk : currentIndex segs32 (jsMod (63/2) (totalDuration segs32)) = 31 := by
    rw [hT]
    norm_num [jsMod, jsTrunc, currentIndex, findCurrent, segs32]
  have hs : specMediaSequenceC1 segs32 (63/2) = 1 := by
    rw [specMediaSequenceC1, hk, hT]
    norm_num
  refine ⟨by rw [h1, hm], hs, ?_⟩
  rw [h1, hm, hs]
  decide

/-- C1, amended: for every non-empty compiled program, the
`#EXT-X-MEDIA-SEQUENCE` value of the rendered manifest equals
`floor(offset / T) * L` — the `max(0, k - windowBehind)` summand of the claim
does not exist in the current code; in particular the S3 value 6 at offset 33
for the 6/6/4.5 program still holds (see the witness). -/
theorem C1_amended (segs : List Segment) (off : ℚ) (hne : segs ≠ []) :
    emittedMediaSequence (createRollingPlaylist segs off) =
      some (⌊off / totalDuration segs⌋ * segs.length) :=
  emittedMediaSequence_eq segs off hne

/-- C1, witness: the amended formula at the S3 scenario (offset 33, two full
loops of the 6/6/4.5 program) gives media sequence 6. -/
theorem C1_amended_witness :
    segs3 ≠ [] ∧
    emittedMediaSequence (createRollingPlaylist segs3 33) = some 6 := by
  have hne : segs3 ≠ [] := by simp [segs3]
  refine ⟨hne, ?_⟩
  rw [C1_amended segs3 33 hne]
  norm_num [totalDuration, segs3]

/-- C2: the media sequence is monotone in the offset and advances by exactly
`L` across one full loop; the manifest carries exactly this value. -/
theorem C2_monotonicity (segs : List Segment) (a b : ℚ) (hne : segs ≠ [])
    (hT : 0 < totalDuration segs) (ha : 0 ≤ a) (hab : a < b) :
    mediaSequence segs a ≤ mediaSequence segs b ∧
    mediaSequence segs (a + totalDuration segs) =
      mediaSequence segs a + segs.length ∧
    emittedMediaSequence (createRollingPlaylist segs a) =
      some (mediaSequence segs a) ∧
    emittedMediaSequence (createRollingPlaylist segs b) =
      some (mediaSequence segs b) := by
  refine ⟨?_, ?_, emittedMediaSequence_eq segs a hne, emittedMediaSequence_eq segs b hne⟩
  · unfold mediaSequence
    have hd : a / totalDuration segs ≤ b / totalDuration segs :=
      (div_le_div_right hT).mpr hab.le
    exact mul_le_mul_of_nonneg_right (Int.floor_le_floor hd) (Int.natCast_nonneg _)
  · unfold mediaSequence
    have h : (a + totalDuration segs) / totalDuration segs =
        a / totalDuration segs + 1 := by
      field_simp
    rw [h, Int.floor_add_one]
    ring

/-- C2, witness: the monotonicity theorem applied to the 6/6/4.5 program at
offsets 1 < 2. -/
theorem C2_monotonicity_witness :
    (segs3 ≠ [] ∧ 0 < totalDuration segs3 ∧ (0 : ℚ) ≤ 1 ∧ (1 : ℚ) < 2) ∧
    (mediaSequence segs3 1 ≤ mediaSequence segs3 2 ∧
     mediaSequence segs3 (1 + totalDuration segs3) =
       mediaSequence segs3 1 + segs3.length ∧
     emittedMediaSequence (createRollingPlaylist segs3 1) =
       some (mediaSequence segs3 1) ∧
     emittedMediaSequence (createRollingPlaylist segs3 2) =
       some (mediaSequence segs3 2)) := by
  have h1 : segs3 ≠ [] := by simp [segs3]
  have h2 : 0 < totalDuration segs3 := by norm_num [totalDuration, segs3]
  exact ⟨⟨h1, h2, by norm_num, by norm_num⟩,
    C2_monotonicity segs3 1 2 h1 h2 (by norm_num) (by norm_num)⟩

/-- C3, counterexample: for the 3-segment program at offset 0 the manifest has
3 `#EXTINF` lines, but the claim's formula
`min(windowBehind + windowAhead, windowAhead + k) = min(2030, 2000 + k)`
yields 2000 (`k = 0`), so the claim is false on the code. -/
theorem C3_counterexample :
    countEXTINF (createRollingPlaylist segs3 0) = 3 ∧
    min (30 + 2000)
      (2000 + currentIndex segs3 (jsMod 0 (totalDuration segs3))) = 2000 ∧
    (3 : ℕ) ≠ 2000 := by
  refine ⟨?_, ?_, by norm_num⟩
  · norm_num [createRollingPlaylist, segs3, countEXTINF, windowOf, totalDuration,
      jsMod, jsTrunc, currentIndex, findCurrent, bufferAhead, bodyOf, bodyAux]
  · norm_num [currentIndex, findCurrent, jsMod, jsTrunc, totalDuration, segs3]

/-- C3, amended: the number of `#EXTINF` lines of the rendered manifest equals
`min(k + bufferAhead, L)` with `bufferAhead = 18` (the current code has no
2030-segment rolling window), and in particular never exceeds `L`. -/
theorem C3_amended (segs : List Segment) (off : ℚ) (hne : segs ≠ []) :
    countEXTINF (createRollingPlaylist segs off) =
      min (currentIndex segs (jsMod off (totalDuration segs)) + bufferAhead)
        segs.length ∧
    countEXTINF (createRollingPlaylist segs off) ≤ segs.length := by
  have h : countEXTINF (createRollingPlaylist segs off) =
      (windowOf segs off).length := by
    rw [createRollingPlaylist_eq segs off hne]
    show countEXTINF (bodyOf (windowOf segs off)) = _
    exact countEXTINF_bodyAux _ none
  refine ⟨by rw [h, windowOf_length], ?_⟩
  rw [h, windowOf_length]
  omega

/-- C3, witness: the amended count at the 3-segment program and offset 0 is
`min(0 + 18, 3) = 3`. -/
theorem C3_amended_witness :
    segs3 ≠ [] ∧ countEXTINF (createRollingPlaylist segs3 0) = 3 := by
  have hne : segs3 ≠ [] := by simp [segs3]
  refine ⟨hne, ?_⟩
  rw [(C3_amended segs3 0 hne).1]
  norm_num [currentIndex, findCurrent, jsMod, jsTrunc, totalDuration, segs3,
    bufferAhead]

/-- C4: the rendered manifest is exactly the four header lines followed by
`bodySpec` of the emitted window — and `bodySpec` places exactly one
`#EXT-X-DISCONTINUITY` line between each pair of consecutive segments whose
`videoIndex` differs and none between segments whose `videoIndex` agrees. -/
theorem C4_discontinuities (segs : List Segment) (off : ℚ) (hne : segs ≠ []) :
    createRollingPlaylist segs off =
      Line.extm3u :: Line.version ::
      Line.targetDur (targetDurationOf (windowOf segs off)) ::
      Line.mediaSeq (mediaSequence segs off) ::
      bodySpec (windowOf segs off) := by
  rw [createRollingPlaylist_eq segs off hne, bodyOf_eq_bodySpec]

/-- C4, witness: the two-source program at offset 3 (the S4 shape). -/
theorem C4_discontinuities_witness :
    segsAB ≠ [] ∧
    createRollingPlaylist segsAB 3 =
      Line.extm3u :: Line.version ::
      Line.targetDur (targetDurationOf (windowOf segsAB 3)) ::
      Line.mediaSeq (mediaSequence segsAB 3) ::
      bodySpec (windowOf segsAB 3) :=
  ⟨by simp [segsAB], C4_discontinuities segsAB 3 (by simp [segsAB])⟩

/-- C5: rendering an empty compiled program yields exactly the three-line
empty/end-of-list manifest, at every offset. -/
theorem C5_empty_manifest (off : ℚ) :
    renderPlaylist (createRollingPlaylist [] off) =
      "#EXTM3U\n#EXT-X-VERSION:3\n#EXT-X-ENDLIST\n" := rfl

/-- C6: the emitted `#EXT-X-TARGETDURATION` value is exactly
`ceil(max(Dmax_window, 2))` where `Dmax_window` is the maximum duration in the
emitted window; consequently it dominates `ceil(d)` for every emitted segment
duration `d`. -/
theorem C6_targetDuration (segs : List Segment) (off : ℚ) (hne : segs ≠ []) :
    tdValues (createRollingPlaylist segs off) =
      [⌈max (maxSegDuration (windowOf segs off)) 2⌉] ∧
    ∀ s ∈ windowOf segs off,
      (⌈s.duration⌉ : ℤ) ≤ targetDurationOf (windowOf segs off) := by
  have hw : windowOf segs off ≠ [] := windowOf_ne_nil segs off hne
  have hmax : targetDurationOf (windowOf segs off) =
      ⌈max (maxSegDuration (windowOf segs off)) 2⌉ := by
    rw [targetDurationOf, foldl_max_eq _ hw 2, max_comm]
  constructor
  · rw [createRollingPlaylist_eq segs off hne]
    show targetDurationOf (windowOf segs off) ::
        tdValues (bodyOf (windowOf segs off)) = _
    rw [tdValues_bodyOf, hmax]
  · intro s hs
    rw [hmax]
    exact Int.ceil_le_ceil
      (le_trans (le_maxSegDuration _ s hs) (le_max_left _ _))

/-- C6, witness: for the 6/6/4.5 program at offset 0 the emitted target
duration is 6 (the S2 value). -/
theorem C6_targetDuration_witness :
    segs3 ≠ [] ∧ tdValues (createRollingPlaylist segs3 0) = [6] := by
  have hne : segs3 ≠ [] := by simp [segs3]
  refine ⟨hne, ?_⟩
  rw [(C6_targetDuration segs3 0 hne).1]
  norm_num [windowOf, maxSegDuration, segs3, totalDuration, jsMod, jsTrunc,
    currentIndex, findCurrent, bufferAhead]

/-- C7, counterexample: a bundle satisfying every clause except the metadata
record is reported complete by `isAlreadyGenerated`, so the claim's
"metadata record is present" clause is false of the code — the check never
consults metadata.json. -/
theorem C7_counterexample :
    (isAlreadyGenerated noMetadataBundle).1 = true ∧
    ¬ specCompleteBundle noMetadataBundle := ⟨by decide, by decide⟩

/-- C7, amended: `isAlreadyGenerated` reports complete iff the index file is
present, the directory holds at least one `.ts` file, the index contains the
end-of-list marker, and every listed segment file exists on disk — the
metadata record is not consulted.  Whenever the check fails, it has invoked
`deletePartialGeneration` exactly when the index or the directory exists. -/
theorem C7_amended (b : Bundle) :
    ((isAlreadyGenerated b).1 = true ↔
      (b.indexPresent = true ∧
       b.dirFiles.filter endsWithTs ≠ [] ∧
       b.endlistInIndex = true ∧
       ∀ r ∈ b.listedSegments, b.dirFiles.contains r = true)) ∧
    ((isAlreadyGenerated b).1 = false →
      (isAlreadyGenerated b).2 = (b.indexPresent || b.dirExists)) := by
  obtain ⟨de, ip, df, el, ls, mp⟩ := b
  constructor
  · unfold isAlreadyGenerated
    split_ifs with h1 h2 h3 h4 <;>
      simp_all [List.isEmpty_iff, List.any_eq_true]
  · unfold isAlreadyGenerated
    split_ifs with h1 h2 h3 h4 <;> simp_all

/-- C7, witness: the amended theorem applied to a bundle lacking the
end-of-list marker: reported not complete and reaped. -/
theorem C7_amended_witness :
    (isAlreadyGenerated noEndlistBundle).1 = false ∧
    (isAlreadyGenerated noEndlistBundle).2 =
      (noEndlistBundle.indexPresent || noEndlistBundle.dirExists) :=
  ⟨by decide, (C7_amended noEndlistBundle).2 (by decide)⟩

/-- With a negative offset the selected window is the one of offset 0, because
the normalized offset is ≤ 0 and the scan stops at index 0 in both cases. -/
theorem windowOf_of_neg (s : Segment) (rest : List Segment) (off : ℚ)
    (hT : 0 < totalDuration (s :: rest)) (hts : 0 < s.timestamp) (hoff : off < 0) :
    windowOf (s :: rest) off = windowOf (s :: rest) 0 := by
  unfold windowOf
  rw [jsMod_zero,
    currentIndex_head s rest _ (lt_of_le_of_lt (jsMod_nonpos off _ hoff hT) hts),
    currentIndex_head s rest 0 hts]

/-- C8, counterexample: rendering the 6/6/4.5 program through
`Channel.getPlaylist` with the clock one second before the epoch
(`now = 1000 ms`, `startTime = 2000 ms`, offset −1 s) does not equal rendering
at offset 0, and the emitted media sequence is −3, which is negative — the
offset is not clamped. -/
theorem C8_counterexample :
    getPlaylist true 1000 2000 segs3 ≠ getPlaylist true 2000 2000 segs3 ∧
    emittedMediaSequence (createRollingPlaylist segs3 ((1000 - 2000) / 1000)) =
      some (-3) := by
  have hne : segs3 ≠ [] := by simp [segs3]
  have hoff : ((1000 : ℚ) - 2000) / 1000 = -1 := by norm_num
  have e1 : emittedMediaSequence (createRollingPlaylist segs3 (-1)) = some (-3) := by
    rw [emittedMediaSequence_eq segs3 (-1) hne]
    norm_num [mediaSequence, totalDuration, segs3]
  have e0 : emittedMediaSequence (createRollingPlaylist segs3 0) = some 0 := by
    rw [emittedMediaSequence_eq segs3 0 hne]
    norm_num [mediaSequence, totalDuration, segs3]
  constructor
  · intro h
    have h2 : createRollingPlaylist segs3 (-1) = createRollingPlaylist segs3 0 := by
      simpa [getPlaylist, hoff, show ((2000 : ℚ) - 2000) / 1000 = 0 by norm_num]
        using h
    have hcontra : some (-3 : ℤ) = some 0 := by rw [← e1, h2, e0]
    exact absurd hcontra (by decide)
  · rw [hoff]
    exact e1

/-- C8, amended: a negative offset is not clamped.  The rendered manifest has
the same target-duration line and the same body as the offset-0 manifest (the
current index is 0 in both), but its media-sequence value is
`floor(offset/T) * L`, which is strictly negative. -/
theorem C8_amended (s : Segment) (rest : List Segment) (now startTime : ℚ)
    (hT : 0 < totalDuration (s :: rest)) (hts : 0 < s.timestamp)
    (hreg : now < startTime) :
    getPlaylist true now startTime (s :: rest) =
      some (Line.extm3u :: Line.version ::
        Line.targetDur (targetDurationOf (windowOf (s :: rest) 0)) ::
        Line.mediaSeq (mediaSequence (s :: rest) ((now - startTime) / 1000)) ::
        bodyOf (windowOf (s :: rest) 0)) ∧
    mediaSequence (s :: rest) ((now - startTime) / 1000) < 0 := by
  have hoff : (now - startTime) / 1000 < 0 :=
    div_neg_of_neg_of_pos (by linarith) (by norm_num)
  have hw := windowOf_of_neg s rest _ hT hts hoff
  constructor
  · unfold getPlaylist
    rw [if_neg (by simp), createRollingPlaylist_eq _ _ (by simp), hw]
  · rw [mediaSequence]
    have hx : (now - startTime) / 1000 / totalDuration (s :: rest) < 0 :=
      div_neg_of_neg_of_pos hoff hT
    have hfl : ⌊(now - startTime) / 1000 / totalDuration (s :: rest)⌋ < 0 :=
      lt_of_not_ge fun hge => absurd (Int.floor_nonneg.mp hge) (not_le.mpr hx)
    have hL : (0 : ℤ) < ((s :: rest).length : ℤ) := by
      exact_mod_cast Nat.succ_pos rest.length
    exact mul_neg_of_neg_of_pos hfl hL

/-- C8, witness: the amended theorem at the 6/6/4.5 program with
`now = 1000 ms`, `startTime = 2000 ms`. -/
theorem C8_amended_witness :
    (0 < totalDuration (Segment.mk 6 "a0" 0 6 ::
        [Segment.mk 6 "a1" 0 12, Segment.mk (9/2) "a2" 0 (33/2)]) ∧
     (0 : ℚ) < (Segment.mk 6 "a0" 0 6).timestamp ∧ (1000 : ℚ) < 2000) ∧
    (getPlaylist true 1000 2000 (Segment.mk 6 "a0" 0 6 ::
        [Segment.mk 6 "a1" 0 12, Segment.mk (9/2) "a2" 0 (33/2)]) =
      some (Line.extm3u :: Line.version ::
        Line.targetDur (targetDurationOf (windowOf (Segment.mk 6 "a0" 0 6 ::
          [Segment.mk 6 "a1" 0 12, Segment.mk (9/2) "a2" 0 (33/2)]) 0)) ::
        Line.mediaSeq (mediaSequence (Segment.mk 6 "a0" 0 6 ::
          [Segment.mk 6 "a1" 0 12, Segment.mk (9/2) "a2" 0 (33/2)])
          ((1000 - 2000) / 1000)) ::
        bodyOf (windowOf (Segment.mk 6 "a0" 0 6 ::
          [Segment.mk 6 "a1" 0 12, Segment.mk (9/2) "a2" 0 (33/2)]) 0)) ∧
     mediaSequence (Segment.mk 6 "a0" 0 6 ::
        [Segment.mk 6 "a1" 0 12, Segment.mk (9/2) "a2" 0 (33/2)])
        ((1000 - 2000) / 1000) < 0) := by
  have h1 : 0 < totalDuration (Segment.mk 6 "a0" 0 6 ::
      [Segment.mk 6 "a1" 0 12, Segment.mk (9/2) "a2" 0 (33/2)]) := by
    norm_num [totalDuration]
  have h2 : (0 : ℚ) < (Segment.mk 6 "a0" 0 6).timestamp := by norm_num
  have h3 : (1000 : ℚ) < 2000 := by norm_num
  exact ⟨⟨h1, h2, h3⟩, C8_amended (Segment.mk 6 "a0" 0 6)
    [Segment.mk 6 "a1" 0 12, Segment.mk (9/2) "a2" 0 (33/2)] 1000 2000 h1 h2 h3⟩

/-- Every entry emitted by the `videos.forEach` body has
`isCurrent = (startTime ≤ playerTime && playerTime < endTime)`. -/
theorem mem_entriesForLoop (videos : List ShowRec)
    (cls ds de pt : ℚ) (e : ScheduleEntry)
    (he : e ∈ entriesForLoop videos cls ds de pt) :
    e.isCurrent = (decide (e.startTime ≤ pt) && decide (pt < e.endTime)) := by
  simp only [entriesForLoop, List.mem_filterMap] at he
  obtain ⟨v, hv, heq⟩ := he
  split_ifs at heq with h1 h2
  all_goals
    first
    | (obtain rfl := Option.some.inj heq; rfl)
    | exact absurd heq (by simp)

/-- Every entry collected across loop instances has
`isCurrent = (startTime ≤ playerTime && playerTime < endTime)`. -/
theorem mem_collectLoops (videos : List ShowRec) (ds de pt ld : ℚ) :
    ∀ (fuel : ℕ) (cls : ℚ) (e : ScheduleEntry),
      e ∈ collectLoops videos ds de pt ld fuel cls →
      e.isCurrent = (decide (e.startTime ≤ pt) && decide (pt < e.endTime)) := by
  intro fuel
  induction fuel with
  | zero => intro cls e he; simp [collectLoops] at he
  | succ n ih =>
    intro cls e he
    rw [collectLoops] at he
    split_ifs at he with h
    · rcases List.mem_append.mp he with h1 | h2
      · exact mem_entriesForLoop videos cls ds de pt e h1
      · exact ih _ e h2
    · simp at he

/-- C9, counterexample: for the two-show channel `segsC9` with
`startTime = 0 ms`, `now = 5000 ms`, guide window `[0, 40000)`, the schedule
entry covering `now` (show "A", 0–10000 ms) has `isCurrent = false`: the code
compares against `playerTime = now + 18 · avgSegmentDuration · 1000 = 185000`,
a future-buffered time, not against `now`. -/
theorem C9_counterexample :
    (⟨"A", 0, 10000, 10, false⟩ : ScheduleEntry) ∈
      getSchedule dnC9 segsC9 0 5000 0 40000 ∧
    (⟨"A", 0, 10000, 10, false⟩ : ScheduleEntry).startTime ≤ 5000 ∧
    (5000 : ℚ) < (⟨"A", 0, 10000, 10, false⟩ : ScheduleEntry).endTime ∧
    (⟨"A", 0, 10000, 10, false⟩ : ScheduleEntry).isCurrent = false := by
  have hev : getSchedule dnC9 segsC9 0 5000 0 40000 =
      [⟨"A", 0, 10000, 10, false⟩, ⟨"B", 10000, 20000, 10, false⟩,
       ⟨"A", 20000, 30000, 10, false⟩, ⟨"B", 30000, 40000, 10, false⟩] := by
    norm_num [getSchedule, preMergeSchedule, segsC9, dnC9, totalDuration,
      buildShows, buildShowsAux, addToLast, playerTimeOf, bufferAhead, jsMod,
      jsTrunc, fuelFor, backToDayStart, collectLoops, entriesForLoop,
      List.filterMap, sortByStart, insertByStart, mergeShorts, mergeRun,
      shortThreshold, show ("B" : String) ≠ "A" from by decide,
      show ("A" : String) ≠ "B" from by decide]
  rw [hev]
  exact ⟨by simp, by norm_num, by norm_num, rfl⟩

/-- C9, amended: every entry produced by the schedule-generation loop has
`isCurrent` true iff `startInstant ≤ playerTime < endInstant`, where
`playerTime = now + bufferAhead · avgSegmentDuration · 1000` is the
future-buffered time, not `now`; the bounds are inclusive on the left and
exclusive on the right (the merge pass then ORs these flags). -/
theorem C9_amended (displayName : ℕ → String) (segs : List Segment)
    (startTime now dayStart dayEnd : ℚ) (e : ScheduleEntry)
    (he : e ∈ preMergeSchedule displayName segs startTime now dayStart dayEnd) :
    e.isCurrent = true ↔
      (e.startTime ≤ playerTimeOf segs now ∧ playerTimeOf segs now < e.endTime) := by
  simp only [preMergeSchedule] at he
  have h := mem_collectLoops (buildShows displayName segs) dayStart dayEnd
    (playerTimeOf segs now) (totalDuration segs * 1000) _ _ e he
  rw [h]
  simp

/-- C9, witness: the amended theorem at the first entry of the concrete
pre-merge schedule of the counterexample scenario. -/
theorem C9_amended_witness :
    (⟨"A", 0, 10000, 10, false⟩ : ScheduleEntry) ∈
      preMergeSchedule dnC9 segsC9 0 5000 0 40000 ∧
    ((⟨"A", 0, 10000, 10, false⟩ : ScheduleEntry).isCurrent = true ↔
      ((⟨"A", 0, 10000, 10, false⟩ : ScheduleEntry).startTime ≤
          playerTimeOf segsC9 5000 ∧
        playerTimeOf segsC9 5000 <
          (⟨"A", 0, 10000, 10, false⟩ : ScheduleEntry).endTime)) := by
  have hmem : (⟨"A", 0, 10000, 10, false⟩ : ScheduleEntry) ∈
      preMergeSchedule dnC9 segsC9 0 5000 0 40000 := by
    have hp : preMergeSchedule dnC9 segsC9 0 5000 0 40000 =
        [⟨"A", 0, 10000, 10, false⟩, ⟨"B", 10000, 20000, 10, false⟩,
         ⟨"A", 20000, 30000, 10, false⟩, ⟨"B", 30000, 40000, 10, false⟩] := by
      norm_num [preMergeSchedule, segsC9, dnC9, totalDuration, buildShows,
        buildShowsAux, addToLast, playerTimeOf, bufferAhead, jsMod, jsTrunc,
        fuelFor, backToDayStart, collectLoops, entriesForLoop, List.filterMap]
    rw [hp]
    simp
  exact ⟨hmem, C9_amended dnC9 segsC9 0 5000 0 40000 _ hmem⟩

/-- Looking a key up in an extended association list still finds the original
record. -/
theorem lookup_append_some (l l2 : List (String × MRecord)) (k : String)
    (r : MRecord) (h : l.lookup k = some r) : (l ++ l2).lookup k = some r := by
  induction l with
  | nil => simp [List.lookup] at h
  | cons a rest ih =>
    obtain ⟨k1, v1⟩ := a
    rw [List.cons_append]
    rw [List.lookup] at h ⊢
    cases hk : (k == k1) with
    | true => rw [hk] at h; simpa [hk] using h
    | false => rw [hk] at h; simpa [hk] using ih h

/-- Appending a fresh key to an association list makes it found. -/
theorem lookup_append_self (l : List (String × MRecord)) (k : String)
    (r : MRecord) (h : l.lookup k = none) : (l ++ [(k, r)]).lookup k = some r := by
  induction l with
  | nil => simp [List.lookup]
  | cons a rest ih =>
    obtain ⟨k1, v1⟩ := a
    rw [List.cons_append]
    rw [List.lookup] at h ⊢
    cases hk : (k == k1) with
    | true => rw [hk] at h; simp at h
    | false => rw [hk] at h; simpa [hk] using ih h

/-- Unfolding one step of the `queue.forEach` fold of `updateManifest`. -/
theorem updateManifest_cons (hash basename : String → String) (now : ℤ)
    (fp : String) (rest : List String) (m : List (String × MRecord)) :
    updateManifest hash basename now (fp :: rest) m =
      updateManifest hash basename now rest
        (if (m.lookup (hash fp)).isSome = true then m
         else m ++ [(hash fp, ⟨fp, basename fp, now⟩)]) := rfl

/-- `updateManifest` never changes or removes an existing record. -/
theorem updateManifest_preserves (hash basename : String → String) (now : ℤ)
    (queue : List String) :
    ∀ (manifest : List (String × MRecord)) (k : String) (r : MRecord),
      manifest.lookup k = some r →
      (updateManifest hash basename now queue manifest).lookup k = some r := by
  induction queue with
  | nil => intro m k r h; simpa [updateManifest] using h
  | cons fp rest ih =>
    intro m k r h
    rw [updateManifest_cons]
    apply ih
    by_cases hx : (m.lookup (hash fp)).isSome = true
    · rw [if_pos hx]
      exact h
    · rw [if_neg hx]
      exact lookup_append_some m _ k r h

/-- After `updateManifest` every queued path has an entry under its
fingerprint. -/
theorem updateManifest_covers (hash basename : String → String) (now : ℤ)
    (queue : List String) :
    ∀ (manifest : List (String × MRecord)), ∀ fp ∈ queue,
      ((updateManifest hash basename now queue manifest).lookup (hash fp)).isSome
        = true := by
  induction queue with
  | nil => simp
  | cons g rest ih =>
    intro m fp hfp
    rcases List.mem_cons.mp hfp with rfl | hfp2
    · rw [updateManifest_cons]
      have hsome : (((if (m.lookup (hash fp)).isSome = true then m
          else m ++ [(hash fp, ⟨fp, basename fp, now⟩)]).lookup (hash fp)).isSome)
            = true := by
        by_cases hx : (m.lookup (hash fp)).isSome = true
        · rw [if_pos hx]
          exact hx
        · have hnone : m.lookup (hash fp) = none :=
            Option.not_isSome_iff_eq_none.mp hx
          rw [if_neg hx, lookup_append_self m _ _ hnone]
          rfl
      obtain ⟨r, hr⟩ := Option.isSome_iff_exists.mp hsome
      rw [updateManifest_preserves hash basename now rest _ (hash fp) r hr]
      rfl
    · rw [updateManifest_cons]
      exact ih _ fp hfp2

/-- C10: `updateManifest` is append-only: every fingerprint already present
keeps exactly its record (so nothing is removed or rewritten), and afterwards
every path of the queue has an entry keyed by its fingerprint. -/
theorem C10_append_only (hash basename : String → String) (now : ℤ)
    (queue : List String) (manifest : List (String × MRecord)) :
    (∀ (k : String) (r : MRecord), manifest.lookup k = some r →
        (updateManifest hash basename now queue manifest).lookup k = some r) ∧
    (∀ fp ∈ queue,
        ((updateManifest hash basename now queue manifest).lookup (hash fp)).isSome
          = true) :=
  ⟨fun k r h => updateManifest_preserves hash basename now queue manifest k r h,
   fun fp hfp => updateManifest_covers hash basename now queue manifest fp hfp⟩

/-- C10, witness: one existing record survives an update that also adds a new
queued path. -/
theorem C10_append_only_witness :
    ((([("h0", ⟨"p0", "f0", 5⟩)] : List (String × MRecord)).lookup "h0" =
        some ⟨"p0", "f0", 5⟩) ∧ "a" ∈ ["a"]) ∧
    ((updateManifest (fun p => p ++ "!") (fun p => p) 7 ["a"]
        [("h0", ⟨"p0", "f0", 5⟩)]).lookup "h0" = some ⟨"p0", "f0", 5⟩ ∧
     ((updateManifest (fun p => p ++ "!") (fun p => p) 7 ["a"]
        [("h0", ⟨"p0", "f0", 5⟩)]).lookup ((fun p => p ++ "!") "a")).isSome
          = true) := by
  refine ⟨⟨by decide, by decide⟩, ?_, ?_⟩
  · exact (C10_append_only (fun p => p ++ "!") (fun p => p) 7 ["a"]
      [("h0", ⟨"p0", "f0", 5⟩)]).1 "h0" ⟨"p0", "f0", 5⟩ (by decide)
  · exact (C10_append_only (fun p => p ++ "!") (fun p => p) 7 ["a"]
      [("h0", ⟨"p0", "f0", 5⟩)]).2 "a" (by decide)

end Broadcaster
